import Mathlib

/-
  Verification development for the scroll-driven 3D walk experience
  (Experience / CharacterController / CameraController / UiController /
  ScrollController, plus the Gidis atmosphere effects).

  The repository ships two revisions of CharacterController in the same
  source dump:
  * a constant-rate chase revision (smoothSpeed 2 units per second over a
    30 unit path, 1e-4 deadband, explicit clamp of currentProgress,
    speed = abs(dz)/dt), embedded below as namespace CharacterController;
  * an exponential chase revision (t = 1 - exp(-5 dt), 40 unit path,
    WALK_THRESHOLD 0.02, speed division guarded by max(dt, 1e-5), early
    return when the animation mixer is absent), embedded as namespace
    CharacterControllerExp.

  Scalar arithmetic of the program is embedded over the rationals where the
  source code is purely algebraic, so that concrete runs can be decided; the
  exponential controller and the camera distance facts live over the reals.
  IEEE special values (NaN, infinities), which matter for one claim about
  malformed dt, are modelled separately by the JNum type.
-/

namespace ThreeMath

/-- THREE.MathUtils.clamp value lo hi, that is Math.max lo (Math.min hi value). -/
def clamp {α : Type} [LinearOrder α] (value lo hi : α) : α :=
  max lo (min hi value)

/-- THREE.MathUtils.lerp x y t = x + (y - x) * t. -/
def lerp {α : Type} [CommRing α] (x y t : α) : α :=
  x + (y - x) * t

theorem clamp_mem {α : Type} [LinearOrder α] (value lo hi : α) (h : lo ≤ hi) :
    lo ≤ clamp value lo hi ∧ clamp value lo hi ≤ hi := by
  refine ⟨le_max_left _ _, ?_⟩
  exact max_le h (min_le_left _ _)

theorem clamp_eq_self {α : Type} [LinearOrder α] (value lo hi : α)
    (h1 : lo ≤ value) (h2 : value ≤ hi) : clamp value lo hi = value := by
  unfold clamp
  rw [min_eq_right h2, max_eq_right h1]

end ThreeMath

namespace JsMath

/-- Math.sign over the rationals. -/
def sign (x : ℚ) : ℚ :=
  if 0 < x then 1 else if x < 0 then -1 else 0

end JsMath

namespace CharacterController

/-- The two animation clips the controller blends between. -/
inductive Clip where
  | idle : Clip
  | walk : Clip
deriving DecidableEq, Repr

/-- Path start, startZ field of the constant-rate controller. -/
def startZ : ℚ := 0

/-- Path end, endZ field of the constant-rate controller. -/
def endZ : ℚ := -30

/-- Chase rate in world units per second, smoothSpeed field. -/
def smoothSpeed : ℚ := 2

/-- Speed below this plays idle, idleThreshold field (0.01). -/
def idleThreshold : ℚ := 1/100

/--
State of the constant-rate CharacterController.  The rational fields mirror
the instance fields of the class; idleExists, walkExists and currentAction
mirror the nullable idleAction, walkAction and currentAction references;
fadeCount is a ghost counter bumped by each fadeToAction call so that the
absence of a new cross-fade is expressible.  posZ is object3D.position.z.
-/
structure State where
  currentProgress : ℚ
  targetProgress : ℚ
  lastZ : ℚ
  currentSpeed : ℚ
  posZ : ℚ
  idleExists : Bool
  walkExists : Bool
  currentAction : Option Clip
  fadeCount : ℕ
deriving DecidableEq, Repr

/-- Field values after the constructor ran (placeholder box at z = 0,
no mixer or actions yet). -/
def initialState : State :=
  { currentProgress := 0, targetProgress := 0, lastZ := 0, currentSpeed := 0
    posZ := 0, idleExists := false, walkExists := false
    currentAction := none, fadeCount := 0 }

/-- setTargetProgress(progress): targetProgress := clamp(progress, 0, 1). -/
def setTargetProgress (s : State) (progress : ℚ) : State :=
  { s with targetProgress := ThreeMath.clamp progress 0 1 }

/-- The per-tick bound on the progress step,
(smoothSpeed * delta) / Math.abs(endZ - startZ). -/
def maxStep (delta : ℚ) : ℚ :=
  smoothSpeed * delta / |endZ - startZ|

/--
updatePosition(delta): move currentProgress toward targetProgress by at most
maxStep when the gap exceeds the 1e-4 deadband, clamp it into unit range,
recompute z by lerp, derive speed from the z delta, remember lastZ.
-/
def updatePosition (s : State) (delta : ℚ) : State :=
  let progressDiff := s.targetProgress - s.currentProgress
  let cur :=
    if 1/10000 < |progressDiff| then
      ThreeMath.clamp
        (s.currentProgress + JsMath.sign progressDiff * min |progressDiff| (maxStep delta)) 0 1
    else s.currentProgress
  let z := ThreeMath.lerp startZ endZ cur
  { s with currentProgress := cur
           posZ := z
           currentSpeed := |z - s.lastZ| / delta
           lastZ := z }

/-- fadeToAction(action): cross-fade bookkeeping, the incoming clip becomes
currentAction and one fade is recorded. -/
def fadeToAction (s : State) (action : Clip) : State :=
  { s with currentAction := some action, fadeCount := s.fadeCount + 1 }

/--
updateAnimation(): isMoving := currentSpeed > idleThreshold; fade to walk when
moving, the walk action exists and is not already current; fade to idle when
not moving, the idle action exists and is not already current.
-/
def updateAnimation (s : State) : State :=
  let isMoving := idleThreshold < s.currentSpeed
  if isMoving ∧ s.walkExists = true ∧ s.currentAction ≠ some Clip.walk then
    fadeToAction s Clip.walk
  else if ¬isMoving ∧ s.idleExists = true ∧ s.currentAction ≠ some Clip.idle then
    fadeToAction s Clip.idle
  else s

/-- update(delta): updatePosition, then updateAnimation, then the mixer
advance (which touches no modelled state). -/
def update (s : State) (delta : ℚ) : State :=
  updateAnimation (updatePosition s delta)

/-- External events a client can feed the controller. -/
inductive Event where
  | setTarget (p : ℚ) : Event
  | tick (delta : ℚ) : Event

/-- Run a sequence of events against the controller. -/
def run (s : State) : List Event → State
  | [] => s
  | Event.setTarget p :: rest => run (setTargetProgress s p) rest
  | Event.tick d :: rest => run (update s d) rest

/-- Iterated update with a fixed time step. -/
def chaseIter (s : State) (delta : ℚ) : ℕ → State
  | 0 => s
  | n + 1 => update (chaseIter s delta n) delta

end CharacterController

namespace CharacterControllerExp

/-- Path start of the exponential-chase revision. -/
def startZ : ℝ := 0

/-- Path end of the exponential-chase revision, endZ = -40. -/
def endZ : ℝ := -40

/-- Responsiveness constant, the local smoothSpeed = 5 inside update. -/
def smoothSpeed : ℝ := 5

/-- The WALK_THRESHOLD local constant (0.02) used by the update decision. -/
noncomputable def WALK_THRESHOLD : ℝ := 1/50

/--
State of the exponential-chase CharacterController.  hasMixer mirrors the
nullable mixer reference; idleExists, walkExists and currentAction mirror the
nullable action references; fadeCount is a ghost counter bumped by each
reset-and-fade-in so that the absence of a new cross-fade is expressible.
-/
structure State where
  currentProgress : ℝ
  targetProgress : ℝ
  lastZ : ℝ
  posZ : ℝ
  hasMixer : Bool
  idleExists : Bool
  walkExists : Bool
  currentAction : Option CharacterController.Clip
  fadeCount : ℕ

/-- setTargetProgress(progress): targetProgress := clamp(progress, 0, 1). -/
noncomputable def setTargetProgress (s : State) (progress : ℝ) : State :=
  { s with targetProgress := ThreeMath.clamp progress 0 1 }

/-- getZFromProgress(p): lerp(startZ, endZ, clamp(p, 0, 1)). -/
noncomputable def getZFromProgress (p : ℝ) : ℝ :=
  ThreeMath.lerp startZ endZ (ThreeMath.clamp p 0 1)

/-- playIdle(): unless the idle action is missing or already current, reset
and fade the idle clip in and make it current. -/
def playIdle (s : State) : State :=
  if s.idleExists = false ∨ s.currentAction = some CharacterController.Clip.idle then s
  else { s with currentAction := some CharacterController.Clip.idle
                fadeCount := s.fadeCount + 1 }

/-- playWalk(): unless the walk action is missing or already current, reset
and fade the walk clip in and make it current. -/
def playWalk (s : State) : State :=
  if s.walkExists = false ∨ s.currentAction = some CharacterController.Clip.walk then s
  else { s with currentAction := some CharacterController.Clip.walk
                fadeCount := s.fadeCount + 1 }

/-- The progress value after one tick,
lerp(currentProgress, targetProgress, 1 - exp(-smoothSpeed * delta)). -/
noncomputable def newProgress (s : State) (delta : ℝ) : ℝ :=
  ThreeMath.lerp s.currentProgress s.targetProgress (1 - Real.exp (-smoothSpeed * delta))

/-- The speed the tick derives, abs(newZ - lastZ) / Math.max(delta, 1e-5). -/
noncomputable def computedSpeed (s : State) (delta : ℝ) : ℝ :=
  |getZFromProgress (newProgress s delta) - s.lastZ| / max delta (1/100000)

/--
update(delta) of the exponential revision: early return when the mixer is
absent; otherwise chase the target exponentially, move to the new z, derive
the speed, and when both actions exist pick walk or idle by comparing the
speed with WALK_THRESHOLD; the mixer advance touches no modelled state.
-/
noncomputable def update (s : State) (delta : ℝ) : State :=
  if s.hasMixer = false then s
  else
    let cur := newProgress s delta
    let newZ := getZFromProgress cur
    let speed := computedSpeed s delta
    let s1 := { s with currentProgress := cur, posZ := newZ, lastZ := newZ }
    if s.idleExists = true ∧ s.walkExists = true then
      if WALK_THRESHOLD < speed then playWalk s1 else playIdle s1
    else s1

/-- Iterated update with a fixed time step. -/
noncomputable def updIter (s : State) (delta : ℝ) : ℕ → State
  | 0 => s
  | n + 1 => update (updIter s delta n) delta

end CharacterControllerExp

namespace CameraController

/-- Component-wise real 3-vector, THREE.Vector3. -/
structure Vec3 where
  x : ℝ
  y : ℝ
  z : ℝ

/-- Vector3.add. -/
def vadd (a b : Vec3) : Vec3 :=
  ⟨a.x + b.x, a.y + b.y, a.z + b.z⟩

/-- Vector3.lerp(v, alpha): each component moves by (v - this) * alpha. -/
def vlerp (a b : Vec3) (alpha : ℝ) : Vec3 :=
  ⟨a.x + (b.x - a.x) * alpha, a.y + (b.y - a.y) * alpha, a.z + (b.z - a.z) * alpha⟩

/-- Camera offset from the target, offset field (0, 2, 4). -/
def offset : Vec3 := ⟨0, 2, 4⟩

/-- Look-at offset above the character, lookAtOffset field (0, 1, 0). -/
def lookAtOffset : Vec3 := ⟨0, 1, 0⟩

/-- Smoothed camera state: currentPosition, currentLookAt and the
smoothFactor (0.15 at construction, adjustable via setSmoothFactor). -/
structure CamState where
  currentPosition : Vec3
  currentLookAt : Vec3
  smoothFactor : ℝ

/--
follow(target): lerp currentPosition toward target.position + offset and
currentLookAt toward target.position + lookAtOffset, both by smoothFactor;
the render camera is then placed at currentPosition looking at currentLookAt.
-/
def follow (s : CamState) (targetPosition : Vec3) : CamState :=
  { currentPosition := vlerp s.currentPosition (vadd targetPosition offset) s.smoothFactor
    currentLookAt := vlerp s.currentLookAt (vadd targetPosition lookAtOffset) s.smoothFactor
    smoothFactor := s.smoothFactor }

/-- Euclidean distance between two vectors. -/
noncomputable def dist (a b : Vec3) : ℝ :=
  Real.sqrt ((a.x - b.x) ^ 2 + (a.y - b.y) ^ 2 + (a.z - b.z) ^ 2)

/-- Iterated follow of a constant subject position. -/
def followIter (s : CamState) (p : Vec3) : ℕ → CamState
  | 0 => s
  | n + 1 => follow (followIter s p n) p

end CameraController

namespace Experience

/-- The five statically defined chapters, in order (SCENES array). -/
inductive SceneId where
  | intro : SceneId
  | lifStreet : SceneId
  | yilSonu : SceneId
  | gidis : SceneId
  | final : SceneId
deriving DecidableEq, Repr

/-- SCENES.length. -/
def SCENES_length : ℕ := 5

/-- The scene id stored at a given index of SCENES. -/
def sceneAt : ℕ → SceneId
  | 0 => SceneId.intro
  | 1 => SceneId.lifStreet
  | 2 => SceneId.yilSonu
  | 3 => SceneId.gidis
  | _ => SceneId.final

/-- Whether a chapter owns 3D environment objects (intro and final do not). -/
def hasEnv : SceneId → Bool
  | SceneId.lifStreet => true
  | SceneId.yilSonu => true
  | SceneId.gidis => true
  | _ => false

/--
Environment-lifecycle state of the Experience.  The three booleans aggregate
the nullable per-chapter object handles (lifTribune and friends, yilSonuIsland,
the gidis sun, rain and lightning objects): true when the chapter objects are
attached to the scene.  pending lists the asynchronous environment loads that
have been started but whose completion has not yet attached their objects;
the code has no cancellation for them.
-/
structure ExpState where
  currentSceneIndex : ℕ
  lif : Bool
  yil : Bool
  gidis : Bool
  pending : List SceneId
deriving DecidableEq, Repr

/-- State after the constructor initialised the fields (index 0, no
environment objects, no load in flight). -/
def initialExpState : ExpState :=
  { currentSceneIndex := 0, lif := false, yil := false, gidis := false, pending := [] }

/--
cleanupSceneEnvironment(i): dispatch on the scene id to the per-chapter
cleanup, each of which null-checks its object handles and removes them from
the scene; intro and final clean nothing.
-/
def cleanupSceneEnvironment (s : ExpState) (i : ℕ) : ExpState :=
  match sceneAt i with
  | SceneId.lifStreet => { s with lif := false }
  | SceneId.yilSonu => { s with yil := false }
  | SceneId.gidis => { s with gidis := false }
  | _ => s

/-- The cleanup loop of applyCurrentScene: cleanupSceneEnvironment for every
index 0 .. SCENES.length - 1. -/
def cleanupAllScenes (s : ExpState) : ExpState :=
  (List.range SCENES_length).foldl cleanupSceneEnvironment s

/--
setupSceneEnvironment(i): dispatch to the per-chapter async setup.  Each
setup returns early when its objects already exist (the guard runs at call
time, before any await); otherwise a fire-and-forget load is started, whose
completion will later attach the objects.
-/
def setupSceneEnvironment (s : ExpState) (i : ℕ) : ExpState :=
  match sceneAt i with
  | SceneId.lifStreet =>
      if s.lif = true then s else { s with pending := s.pending ++ [SceneId.lifStreet] }
  | SceneId.yilSonu =>
      if s.yil = true then s else { s with pending := s.pending ++ [SceneId.yilSonu] }
  | SceneId.gidis =>
      if s.gidis = true then s else { s with pending := s.pending ++ [SceneId.gidis] }
  | _ => s

/-- Completion of one started load: the loaded objects are attached to the
scene without re-checking the current chapter (the code has no cancellation). -/
def attachEnv (s : ExpState) : SceneId → ExpState
  | SceneId.lifStreet => { s with lif := true }
  | SceneId.yilSonu => { s with yil := true }
  | SceneId.gidis => { s with gidis := true }
  | _ => s

/-- Let every in-flight load run to completion. -/
def completeAllLoads (s : ExpState) : ExpState :=
  { s.pending.foldl attachEnv s with pending := [] }

/-- Whether the environment objects of a chapter are currently attached. -/
def envPresent (s : ExpState) : SceneId → Bool
  | SceneId.lifStreet => s.lif
  | SceneId.yilSonu => s.yil
  | SceneId.gidis => s.gidis
  | _ => false

/--
applyCurrentScene, environment part: clean up every chapter, then kick off
the asynchronous setup of the chapter at currentSceneIndex.  The UI calls and
the character-facing reset are modelled separately.
-/
def applyCurrentScene (s : ExpState) : ExpState :=
  setupSceneEnvironment (cleanupAllScenes s) s.currentSceneIndex

/-- goToNextScene(): no-op (with a log line) when already at the last
chapter; otherwise increment the index and apply the new scene. -/
def goToNextScene (s : ExpState) : ExpState :=
  if SCENES_length - 1 ≤ s.currentSceneIndex then s
  else applyCurrentScene { s with currentSceneIndex := s.currentSceneIndex + 1 }

/--
Character-facing effect of applyCurrentScene: the Experience resets its own
sceneProgress field to 0, scrolls the window to the top and calls
setTargetProgress(0) on the controller.  No other controller field is
touched.
-/
def applyCurrentSceneCharacterEffect (c : CharacterController.State) :
    CharacterController.State :=
  CharacterController.setTargetProgress c 0

/-- Lightning timer state of the gidis chapter: the flash countdown
(gidisLightningTimer), the waiting countdown (gidisLightningCooldown), the
flash length (gidisLightningDuration) and the light intensity. -/
structure LightningState where
  timer : ℚ
  cooldown : ℚ
  duration : ℚ
  intensity : ℚ
deriving DecidableEq, Repr

/-- Lightning state created by setupGidisEnvironment: intensity 0, timer 0,
cooldown 2 + random * 4, duration field initialised to 0.15.  The random
draw is passed in as r ∈ [0, 1). -/
def initGidisLightning (r : ℚ) : LightningState :=
  { timer := 0, cooldown := 2 + r * 4, duration := 3/20, intensity := 0 }

/--
Lightning part of updateGidisEffects(delta).  While the flash timer is
positive it counts down and the intensity follows 6.5 * t^2 with
t = max(0, timer / duration), forced to 0 once the timer runs out; otherwise
the cooldown counts down and on expiry a new flash starts with duration
drawn from 0.08 + r1 * 0.12 and the next cooldown drawn from 2 + r2 * 4
(the light is also repositioned around the camera, which this model omits).
The draws r1, r2 ∈ [0, 1) stand for Math.random().
-/
def updateGidisLightning (s : LightningState) (delta r1 r2 : ℚ) : LightningState :=
  if 0 < s.timer then
    let timer := s.timer - delta
    let t := max 0 (timer / s.duration)
    let intensity := 13/2 * (t * t)
    if timer ≤ 0 then
      { s with timer := timer, intensity := 0 }
    else
      { s with timer := timer, intensity := intensity }
  else
    let cooldown := s.cooldown - delta
    if cooldown ≤ 0 then
      let duration := 2/25 + r1 * (3/25)
      { s with duration := duration, timer := duration, cooldown := 2 + r2 * 4 }
    else
      { s with cooldown := cooldown }

end Experience

/--
JavaScript number semantics for the dt-robustness analysis: a value is NaN,
one of the two infinities, or a finite number (idealised as a rational, with
no rounding and no negative zero).  The arithmetic below follows IEEE-754
NaN and infinity propagation for exactly the operations the update path of
the constant-rate controller performs.
-/
inductive JNum where
  | nan : JNum
  | inf : JNum
  | ninf : JNum
  | fin (q : ℚ) : JNum
deriving DecidableEq, Repr

namespace JNum

/-- Whether the value is an ordinary finite number. -/
def isFinite : JNum → Bool
  | fin _ => true
  | _ => false

/-- Unary minus. -/
def jneg : JNum → JNum
  | nan => nan
  | inf => ninf
  | ninf => inf
  | fin q => fin (-q)

/-- Addition. -/
def jadd : JNum → JNum → JNum
  | nan, _ => nan
  | _, nan => nan
  | inf, ninf => nan
  | ninf, inf => nan
  | inf, _ => inf
  | _, inf => inf
  | ninf, _ => ninf
  | _, ninf => ninf
  | fin a, fin b => fin (a + b)

/-- Subtraction, a + (-b). -/
def jsub (a b : JNum) : JNum :=
  jadd a (jneg b)

/-- Multiplication. -/
def jmul : JNum → JNum → JNum
  | nan, _ => nan
  | _, nan => nan
  | inf, inf => inf
  | inf, ninf => ninf
  | ninf, inf => ninf
  | ninf, ninf => inf
  | inf, fin b => if b = 0 then nan else if 0 < b then inf else ninf
  | ninf, fin b => if b = 0 then nan else if 0 < b then ninf else inf
  | fin a, inf => if a = 0 then nan else if 0 < a then inf else ninf
  | fin a, ninf => if a = 0 then nan else if 0 < a then ninf else inf
  | fin a, fin b => fin (a * b)

/-- Division (the finite zero denominator behaves as IEEE +0). -/
def jdiv : JNum → JNum → JNum
  | nan, _ => nan
  | _, nan => nan
  | inf, inf => nan
  | inf, ninf => nan
  | ninf, inf => nan
  | ninf, ninf => nan
  | inf, fin b => if b < 0 then ninf else inf
  | ninf, fin b => if b < 0 then inf else ninf
  | fin _, inf => fin 0
  | fin _, ninf => fin 0
  | fin a, fin b =>
      if b = 0 then (if a = 0 then nan else if 0 < a then inf else ninf)
      else fin (a / b)

/-- Math.min: NaN wins, otherwise the smaller value. -/
def jmin : JNum → JNum → JNum
  | nan, _ => nan
  | _, nan => nan
  | ninf, _ => ninf
  | _, ninf => ninf
  | inf, y => y
  | x, inf => x
  | fin a, fin b => fin (min a b)

/-- Math.max: NaN wins, otherwise the larger value. -/
def jmax : JNum → JNum → JNum
  | nan, _ => nan
  | _, nan => nan
  | inf, _ => inf
  | _, inf => inf
  | ninf, y => y
  | x, ninf => x
  | fin a, fin b => fin (max a b)

/-- Math.abs. -/
def jabs : JNum → JNum
  | nan => nan
  | inf => inf
  | ninf => inf
  | fin q => fin |q|

/-- Math.sign. -/
def jsign : JNum → JNum
  | nan => nan
  | inf => fin 1
  | ninf => fin (-1)
  | fin q => fin (if 0 < q then 1 else if q < 0 then -1 else 0)

/-- The strict greater-than comparison; any comparison with NaN is false. -/
def jgt : JNum → JNum → Bool
  | nan, _ => false
  | _, nan => false
  | inf, inf => false
  | inf, _ => true
  | _, inf => false
  | ninf, ninf => false
  | fin _, ninf => true
  | ninf, fin _ => false
  | fin a, fin b => decide (b < a)

/-- THREE.MathUtils.clamp over JavaScript numbers. -/
def jclamp (value lo hi : JNum) : JNum :=
  jmax lo (jmin hi value)

/-- THREE.MathUtils.lerp over JavaScript numbers. -/
def jlerp (x y t : JNum) : JNum :=
  jadd x (jmul (jsub y x) t)

end JNum

namespace CharacterControllerJs

open JNum

/-- The scalar fields of the constant-rate controller, as JavaScript
numbers. -/
structure JState where
  currentProgress : JNum
  targetProgress : JNum
  lastZ : JNum
  currentSpeed : JNum
  posZ : JNum
deriving DecidableEq, Repr

/-- updatePosition(delta) of the constant-rate controller, replayed over
JavaScript number semantics; the constants are startZ = 0, endZ = -30,
smoothSpeed = 2 and the 1e-4 deadband. -/
def updatePositionJ (s : JState) (delta : JNum) : JState :=
  let progressDiff := jsub s.targetProgress s.currentProgress
  let maxStep := jdiv (jmul (fin 2) delta) (jabs (jsub (fin (-30)) (fin 0)))
  let cur :=
    if jgt (jabs progressDiff) (fin (1/10000)) then
      jclamp (jadd s.currentProgress (jmul (jsign progressDiff) (jmin (jabs progressDiff) maxStep)))
        (fin 0) (fin 1)
    else s.currentProgress
  let z := jlerp (fin 0) (fin (-30)) cur
  { currentProgress := cur
    targetProgress := s.targetProgress
    lastZ := z
    currentSpeed := jdiv (jabs (jsub z s.lastZ)) delta
    posZ := z }

end CharacterControllerJs

namespace CharacterController

theorem updatePosition_targetProgress (s : State) (delta : ℚ) :
    (updatePosition s delta).targetProgress = s.targetProgress := rfl

theorem updatePosition_currentProgress (s : State) (delta : ℚ) :
    (updatePosition s delta).currentProgress =
      if 1/10000 < |s.targetProgress - s.currentProgress| then
        ThreeMath.clamp
          (s.currentProgress +
            JsMath.sign (s.targetProgress - s.currentProgress) *
              min |s.targetProgress - s.currentProgress| (maxStep delta)) 0 1
      else s.currentProgress := rfl

theorem updatePosition_lastZ (s : State) (delta : ℚ) :
    (updatePosition s delta).lastZ =
      ThreeMath.lerp startZ endZ (updatePosition s delta).currentProgress := rfl

theorem updatePosition_currentSpeed (s : State) (delta : ℚ) :
    (updatePosition s delta).currentSpeed =
      |ThreeMath.lerp startZ endZ (updatePosition s delta).currentProgress - s.lastZ| / delta :=
  rfl

theorem updateAnimation_scalars (s : State) :
    (updateAnimation s).currentProgress = s.currentProgress ∧
    (updateAnimation s).targetProgress = s.targetProgress ∧
    (updateAnimation s).lastZ = s.lastZ ∧
    (updateAnimation s).currentSpeed = s.currentSpeed := by
  unfold updateAnimation fadeToAction
  dsimp only
  split_ifs <;> exact ⟨rfl, rfl, rfl, rfl⟩

theorem maxStep_nonneg (delta : ℚ) (h : 0 ≤ delta) : 0 ≤ maxStep delta := by
  unfold maxStep smoothSpeed
  exact div_nonneg (by linarith) (abs_nonneg _)

theorem maxStep_pos (delta : ℚ) (h : 0 < delta) : 0 < maxStep delta := by
  unfold maxStep smoothSpeed endZ startZ
  norm_num
  linarith

/-- The progress chase invariant: both progress values stay in the unit
interval. -/
def Inv (s : State) : Prop :=
  0 ≤ s.currentProgress ∧ s.currentProgress ≤ 1 ∧
    0 ≤ s.targetProgress ∧ s.targetProgress ≤ 1

theorem inv_initialState : Inv initialState := by
  refine ⟨le_refl 0, ?_, le_refl 0, ?_⟩ <;> norm_num [initialState]

theorem inv_setTargetProgress (s : State) (p : ℚ) (h : Inv s) :
    Inv (setTargetProgress s p) := by
  obtain ⟨h1, h2, _, _⟩ := h
  have hc := ThreeMath.clamp_mem p (0 : ℚ) 1 (by norm_num)
  exact ⟨h1, h2, hc.1, hc.2⟩

theorem inv_updatePosition (s : State) (delta : ℚ) (h : Inv s) :
    Inv (updatePosition s delta) := by
  obtain ⟨h1, h2, h3, h4⟩ := h
  refine ⟨?_, ?_, ?_, ?_⟩
  · rw [updatePosition_currentProgress]
    split_ifs with hgt
    · exact (ThreeMath.clamp_mem _ 0 1 (by norm_num)).1
    · exact h1
  · rw [updatePosition_currentProgress]
    split_ifs with hgt
    · exact (ThreeMath.clamp_mem _ 0 1 (by norm_num)).2
    · exact h2
  · rw [updatePosition_targetProgress]; exact h3
  · rw [updatePosition_targetProgress]; exact h4

theorem inv_update (s : State) (delta : ℚ) (h : Inv s) : Inv (update s delta) := by
  have hp := inv_updatePosition s delta h
  have ha := updateAnimation_scalars (updatePosition s delta)
  unfold update
  exact ⟨ha.1 ▸ hp.1, ha.1 ▸ hp.2.1, ha.2.1 ▸ hp.2.2.1, ha.2.1 ▸ hp.2.2.2⟩

theorem inv_run : ∀ (evts : List Event) (s : State), Inv s → Inv (run s evts)
  | [], _, h => h
  | Event.setTarget p :: rest, s, h => inv_run rest _ (inv_setTargetProgress s p h)
  | Event.tick d :: rest, s, h => inv_run rest _ (inv_update s d h)

end CharacterController

/--
Claim C2: along every sequence of setTargetProgress and update calls with
arbitrary rational inputs, targetProgress and currentProgress of the
constant-rate CharacterController stay inside the unit interval, and
setTargetProgress stores exactly the clamp of its input to [0, 1] (a total
function: out-of-range input is silently truncated at the boundary, no error
path exists).
-/
theorem progress_invariant_unit_interval :
    (∀ evts : List CharacterController.Event,
        CharacterController.Inv (CharacterController.run CharacterController.initialState evts))
    ∧ (∀ (s : CharacterController.State) (p : ℚ),
        (CharacterController.setTargetProgress s p).targetProgress = max 0 (min 1 p)) :=
  ⟨fun evts => CharacterController.inv_run evts _ CharacterController.inv_initialState,
   fun _ _ => rfl⟩

/--
Claim C7: goToNextScene called while the current chapter index already is the
last index of SCENES leaves the whole lifecycle state unchanged (in
particular no teardown runs and no environment load starts); the code only
writes a log line.
-/
theorem goToNextScene_noop_on_last_scene (s : Experience.ExpState)
    (h : s.currentSceneIndex = Experience.SCENES_length - 1) :
    Experience.goToNextScene s = s := by
  unfold Experience.goToNextScene
  rw [if_pos (le_of_eq h.symm)]

theorem goToNextScene_noop_on_last_scene_witness :
    Experience.goToNextScene
        { currentSceneIndex := 4, lif := false, yil := false, gidis := true
          pending := [Experience.SceneId.gidis] }
      = { currentSceneIndex := 4, lif := false, yil := false, gidis := true
          pending := [Experience.SceneId.gidis] } :=
  goToNextScene_noop_on_last_scene _ rfl

/--
Claim C10: while the animation mixer has not been created, update(delta) of
the exponential-chase CharacterController returns before touching anything,
for every delta: currentProgress, the position and the last-position tracker
all keep their values.
-/
theorem update_noop_without_mixer (s : CharacterControllerExp.State) (delta : ℝ)
    (h : s.hasMixer = false) : CharacterControllerExp.update s delta = s := by
  unfold CharacterControllerExp.update
  rw [if_pos h]

theorem update_noop_without_mixer_witness :
    CharacterControllerExp.update
        { currentProgress := 0, targetProgress := 1, lastZ := 0, posZ := 0
          hasMixer := false, idleExists := true, walkExists := true
          currentAction := some CharacterController.Clip.idle, fadeCount := 0 } 2
      = { currentProgress := 0, targetProgress := 1, lastZ := 0, posZ := 0
          hasMixer := false, idleExists := true, walkExists := true
          currentAction := some CharacterController.Clip.idle, fadeCount := 0 } :=
  update_noop_without_mixer _ 2 rfl

namespace JNum

theorem jadd_fin (a b : ℚ) : jadd (fin a) (fin b) = fin (a + b) := rfl

theorem jsub_fin (a b : ℚ) : jsub (fin a) (fin b) = fin (a - b) := by
  unfold jsub jneg jadd
  rw [sub_eq_add_neg]

theorem jmul_fin (a b : ℚ) : jmul (fin a) (fin b) = fin (a * b) := rfl

theorem jdiv_fin (a b : ℚ) (hb : b ≠ 0) : jdiv (fin a) (fin b) = fin (a / b) := by
  have h : jdiv (fin a) (fin b) =
      if b = 0 then (if a = 0 then nan else if 0 < a then inf else ninf) else fin (a / b) := rfl
  rw [h, if_neg hb]

theorem jmin_fin (a b : ℚ) : jmin (fin a) (fin b) = fin (min a b) := rfl

theorem jmax_fin (a b : ℚ) : jmax (fin a) (fin b) = fin (max a b) := rfl

theorem jabs_fin (a : ℚ) : jabs (fin a) = fin |a| := rfl

theorem jsign_fin (a : ℚ) :
    jsign (fin a) = fin (if 0 < a then 1 else if a < 0 then -1 else 0) := rfl

theorem jclamp_fin (v lo hi : ℚ) :
    jclamp (fin v) (fin lo) (fin hi) = fin (max lo (min hi v)) := rfl

theorem jlerp_fin (x y t : ℚ) : jlerp (fin x) (fin y) (fin t) = fin (x + (y - x) * t) := by
  unfold jlerp
  rw [jsub_fin, jmul_fin, jadd_fin]

end JNum

/--
Claim C8 (corrected): the update path applies no validation to delta before
the position computation.  What does hold: for every finite delta — zero and
negative values included — currentProgress and position.z stay finite
numbers, because the step and the lerp only add, multiply and divide by the
nonzero path length, and the only division by delta feeds currentSpeed, not
the position.  (A NaN delta, by contrast, propagates into both; see the
counterexample.)
-/
theorem finite_dt_keeps_position_finite (c T l sp pz d : ℚ) :
    ((CharacterControllerJs.updatePositionJ
        { currentProgress := JNum.fin c, targetProgress := JNum.fin T, lastZ := JNum.fin l
          currentSpeed := JNum.fin sp, posZ := JNum.fin pz } (JNum.fin d)).currentProgress).isFinite
        = true
    ∧ ((CharacterControllerJs.updatePositionJ
        { currentProgress := JNum.fin c, targetProgress := JNum.fin T, lastZ := JNum.fin l
          currentSpeed := JNum.fin sp, posZ := JNum.fin pz } (JNum.fin d)).posZ).isFinite
        = true := by
  unfold CharacterControllerJs.updatePositionJ
  dsimp only
  simp only [JNum.jsub_fin, JNum.jabs_fin, JNum.jmul_fin]
  rw [JNum.jdiv_fin _ _ (by norm_num : |(-30 : ℚ) - 0| ≠ 0)]
  simp only [JNum.jsign_fin, JNum.jmin_fin, JNum.jmul_fin, JNum.jadd_fin, JNum.jclamp_fin]
  split_ifs <;> simp only [JNum.jlerp_fin] <;> exact ⟨rfl, rfl⟩

/--
Claim C8, counterexample: from the reachable state with targetProgress 1 and
currentProgress 0, one update tick with delta = NaN drives both
currentProgress and position.z to NaN — the tick is neither skipped nor is
delta clamped, contradicting the claim that NaN can never reach the position.
-/
theorem nan_dt_propagates_to_position_cex :
    (CharacterControllerJs.updatePositionJ
        { currentProgress := JNum.fin 0, targetProgress := JNum.fin 1, lastZ := JNum.fin 0
          currentSpeed := JNum.fin 0, posZ := JNum.fin 0 } JNum.nan).currentProgress = JNum.nan
    ∧ (CharacterControllerJs.updatePositionJ
        { currentProgress := JNum.fin 0, targetProgress := JNum.fin 1, lastZ := JNum.fin 0
          currentSpeed := JNum.fin 0, posZ := JNum.fin 0 } JNum.nan).posZ = JNum.nan := by
  norm_num [CharacterControllerJs.updatePositionJ, JNum.jsub, JNum.jneg, JNum.jadd, JNum.jmul,
    JNum.jdiv, JNum.jmin, JNum.jmax, JNum.jabs, JNum.jsign, JNum.jgt, JNum.jclamp, JNum.jlerp]

namespace Experience

theorem cleanupAllScenes_eq (s : ExpState) :
    cleanupAllScenes s =
      { currentSceneIndex := s.currentSceneIndex, lif := false, yil := false, gidis := false
        pending := s.pending } := rfl

theorem envPresent_setupSceneEnvironment (s : ExpState) (i : ℕ) (id : SceneId) :
    envPresent (setupSceneEnvironment s i) id = envPresent s id := by
  rcases hk : sceneAt i <;>
    simp only [setupSceneEnvironment, hk] <;>
    first
      | rfl
      | (split_ifs <;> cases id <;> rfl)

end Experience

/--
Claim C6 (corrected): activating a chapter first tears down the environment
of every chapter, and each teardown is idempotent; when no asynchronous load
is still in flight, letting the newly started load finish leaves exactly the
active chapter with environment objects (and none at all immediately after
activation, before the load completes).  The exactness guarantee does not
survive a stale in-flight load — see the race counterexample.
-/
theorem environment_exactness_without_inflight_loads :
    (∀ (s : Experience.ExpState) (i : ℕ),
        Experience.cleanupSceneEnvironment (Experience.cleanupSceneEnvironment s i) i
          = Experience.cleanupSceneEnvironment s i)
    ∧ (∀ (s : Experience.ExpState) (id : Experience.SceneId),
        Experience.envPresent (Experience.cleanupAllScenes s) id = false)
    ∧ (∀ (s : Experience.ExpState) (id : Experience.SceneId),
        Experience.envPresent (Experience.applyCurrentScene s) id = false)
    ∧ (∀ (s : Experience.ExpState), s.pending = [] → ∀ id : Experience.SceneId,
        (Experience.envPresent (Experience.completeAllLoads (Experience.applyCurrentScene s)) id
            = true
          ↔ Experience.hasEnv id = true ∧ Experience.sceneAt s.currentSceneIndex = id)) := by
  refine ⟨?_, ?_, ?_, ?_⟩
  · intro s i
    rcases hk : Experience.sceneAt i <;>
      simp only [Experience.cleanupSceneEnvironment, hk]
  · intro s id
    rw [Experience.cleanupAllScenes_eq]
    cases id <;> rfl
  · intro s id
    unfold Experience.applyCurrentScene
    rw [Experience.envPresent_setupSceneEnvironment, Experience.cleanupAllScenes_eq]
    cases id <;> rfl
  · intro s hp id
    unfold Experience.applyCurrentScene
    rw [Experience.cleanupAllScenes_eq, hp]
    rcases hk : Experience.sceneAt s.currentSceneIndex with _ | _ | _ | _ | _ <;>
      simp only [Experience.setupSceneEnvironment, hk] <;>
      cases id <;>
      simp [Experience.completeAllLoads, Experience.attachEnv, Experience.envPresent,
        Experience.hasEnv, List.foldl]

theorem environment_exactness_without_inflight_loads_witness :
    Experience.envPresent
        (Experience.completeAllLoads (Experience.applyCurrentScene
          { currentSceneIndex := 3, lif := true, yil := true, gidis := false, pending := [] }))
        Experience.SceneId.gidis = true
    ∧ Experience.envPresent
        (Experience.completeAllLoads (Experience.applyCurrentScene
          { currentSceneIndex := 3, lif := true, yil := true, gidis := false, pending := [] }))
        Experience.SceneId.lifStreet = false := by
  constructor
  · exact (environment_exactness_without_inflight_loads.2.2.2
      { currentSceneIndex := 3, lif := true, yil := true, gidis := false, pending := [] }
      rfl Experience.SceneId.gidis).mpr ⟨rfl, rfl⟩
  · have h := (environment_exactness_without_inflight_loads.2.2.2
      { currentSceneIndex := 3, lif := true, yil := true, gidis := false, pending := [] }
      rfl Experience.SceneId.lifStreet)
    by_contra hc
    have : Experience.hasEnv Experience.SceneId.lifStreet = true ∧
        Experience.sceneAt 3 = Experience.SceneId.lifStreet :=
      h.mp (by revert hc; cases hb : Experience.envPresent _ Experience.SceneId.lifStreet <;> simp)
    exact absurd this.2 (by decide)

/-- The state produced by advancing twice in rapid succession from the intro
chapter — the second advance happens before the load started by the first
one completed — and then letting both stale loads finish. -/
def raceResult : Experience.ExpState :=
  Experience.completeAllLoads
    (Experience.goToNextScene (Experience.goToNextScene Experience.initialExpState))

/--
Claim C6, counterexample: after two rapid advances (intro to lifStreet to
yilSonu) the active chapter is yilSonu, yet once the un-cancelled lifStreet
load completes its objects are attached too, so a non-active chapter keeps
environment objects — the claimed exactness under the race is false.
-/
theorem environment_race_stale_load_cex :
    Experience.sceneAt raceResult.currentSceneIndex = Experience.SceneId.yilSonu
    ∧ Experience.envPresent raceResult Experience.SceneId.lifStreet = true
    ∧ Experience.SceneId.lifStreet ≠ Experience.SceneId.yilSonu := by
  refine ⟨rfl, rfl, by decide⟩

/--
Claim C9: the lightning effect is a repeating two-phase timer.  Waiting
phase: the cooldown counts down by delta; on expiry a flash starts whose
duration is drawn from 0.08 + r1 * 0.12 (hence in [0.08, 0.2) for a uniform
draw r1 ∈ [0, 1)), the flash timer is set to that duration and the cooldown
is re-drawn from 2 + r2 * 4 (hence in [2, 6)); the cooldown created at setup
lies in the same range.  Flashing phase: while the decremented timer stays
positive the intensity is the peak 6.5 times (remaining / duration) squared,
and once the timer expires the intensity is forced back to 0.  The uniform
distribution of Math.random cannot be expressed here; the draws enter as
oracle inputs r1, r2.
-/
theorem lightning_two_phase_timer_spec (s : Experience.LightningState) (delta r1 r2 : ℚ)
    (hr1a : 0 ≤ r1) (hr1b : r1 < 1) (hr2a : 0 ≤ r2) (hr2b : r2 < 1)
    (hdur : 0 < s.duration) :
    (s.timer ≤ 0 → 0 < s.cooldown - delta →
      Experience.updateGidisLightning s delta r1 r2 = { s with cooldown := s.cooldown - delta })
    ∧ (s.timer ≤ 0 → s.cooldown - delta ≤ 0 →
      (Experience.updateGidisLightning s delta r1 r2).duration = 2/25 + r1 * (3/25)
      ∧ 2/25 ≤ (Experience.updateGidisLightning s delta r1 r2).duration
      ∧ (Experience.updateGidisLightning s delta r1 r2).duration < 1/5
      ∧ (Experience.updateGidisLightning s delta r1 r2).timer
          = (Experience.updateGidisLightning s delta r1 r2).duration
      ∧ (Experience.updateGidisLightning s delta r1 r2).cooldown = 2 + r2 * 4
      ∧ 2 ≤ (Experience.updateGidisLightning s delta r1 r2).cooldown
      ∧ (Experience.updateGidisLightning s delta r1 r2).cooldown < 6)
    ∧ (0 < s.timer → 0 < s.timer - delta →
      (Experience.updateGidisLightning s delta r1 r2).intensity
          = 13/2 * ((s.timer - delta) / s.duration) ^ 2
      ∧ (Experience.updateGidisLightning s delta r1 r2).timer = s.timer - delta)
    ∧ (0 < s.timer → s.timer - delta ≤ 0 →
      (Experience.updateGidisLightning s delta r1 r2).intensity = 0)
    ∧ (2 ≤ (Experience.initGidisLightning r2).cooldown
      ∧ (Experience.initGidisLightning r2).cooldown < 6) := by
  refine ⟨?_, ?_, ?_, ?_, ?_, ?_⟩
  · intro ht hcd
    unfold Experience.updateGidisLightning
    rw [if_neg (not_lt.mpr ht), if_neg (not_le.mpr hcd)]
  · intro ht hcd
    unfold Experience.updateGidisLightning
    rw [if_neg (not_lt.mpr ht), if_pos hcd]
    refine ⟨rfl, by nlinarith, by nlinarith, rfl, rfl, by nlinarith, by nlinarith⟩
  · intro ht htd
    unfold Experience.updateGidisLightning
    rw [if_pos ht, if_neg (not_le.mpr htd)]
    dsimp only
    have hmax : max 0 ((s.timer - delta) / s.duration) = (s.timer - delta) / s.duration :=
      max_eq_right (div_nonneg htd.le hdur.le)
    rw [hmax]
    constructor
    · rw [sq]
    · rfl
  · intro ht htd
    unfold Experience.updateGidisLightning
    rw [if_pos ht, if_pos htd]
  · nlinarith [show (Experience.initGidisLightning r2).cooldown = 2 + r2 * 4 from rfl]
  · nlinarith [show (Experience.initGidisLightning r2).cooldown = 2 + r2 * 4 from rfl]

theorem lightning_two_phase_timer_spec_witness :
    (Experience.updateGidisLightning
        { timer := 0, cooldown := 3, duration := 3/20, intensity := 0 } 1 0 (1/2)
      = { timer := 0, cooldown := 2, duration := 3/20, intensity := 0 })
    ∧ (Experience.updateGidisLightning
        { timer := 3/20, cooldown := 5, duration := 3/20, intensity := 0 } (1/20) 0 (1/2)).intensity
      = 13/2 * ((3/20 - 1/20) / (3/20)) ^ 2 := by
  constructor
  · have h := (lightning_two_phase_timer_spec
      { timer := 0, cooldown := 3, duration := 3/20, intensity := 0 } 1 0 (1/2)
      le_rfl (by norm_num) (by norm_num) (by norm_num) (by norm_num)).1
      (by norm_num) (by norm_num)
    rw [h]
    norm_num
  · exact ((lightning_two_phase_timer_spec
      { timer := 3/20, cooldown := 5, duration := 3/20, intensity := 0 } (1/20) 0 (1/2)
      le_rfl (by norm_num) (by norm_num) (by norm_num) (by norm_num)).2.2.1
      (by norm_num) (by norm_num)).1

/--
Claim C1 (corrected): applyCurrentScene resets the sceneProgress of the
Experience and the targetProgress of the controller to 0, but it does not
touch currentProgress or the lastZ tracker of the motion smoother.
Consequently the speed computed on the first update tick after a chapter
reset is the full chase rate smoothSpeed = 2 — not 0 — whenever the
character stood more than the 1e-4 deadband away from the start and the
tick step does not overshoot the start (the generic situation when a
chapter is completed and the next one activates).
-/
theorem firstTick_speed_after_reset_eq_chase_rate (c : CharacterController.State) (delta : ℚ)
    (hdelta : 0 < delta)
    (hc1 : c.currentProgress ≤ 1)
    (hdead : 1/10000 < c.currentProgress)
    (hstep : CharacterController.maxStep delta ≤ c.currentProgress)
    (hlast : c.lastZ =
      ThreeMath.lerp CharacterController.startZ CharacterController.endZ c.currentProgress) :
    (Experience.applyCurrentSceneCharacterEffect c).targetProgress = 0
    ∧ (Experience.applyCurrentSceneCharacterEffect c).currentProgress = c.currentProgress
    ∧ (Experience.applyCurrentSceneCharacterEffect c).lastZ = c.lastZ
    ∧ (CharacterController.update (Experience.applyCurrentSceneCharacterEffect c) delta).currentSpeed
        = CharacterController.smoothSpeed := by
  have hm0 : 0 < CharacterController.maxStep delta := CharacterController.maxStep_pos delta hdelta
  have hmv : CharacterController.maxStep delta = delta / 15 := by
    unfold CharacterController.maxStep CharacterController.smoothSpeed
      CharacterController.endZ CharacterController.startZ
    norm_num
    ring
  refine ⟨rfl, rfl, rfl, ?_⟩
  have hr : Experience.applyCurrentSceneCharacterEffect c =
      { c with targetProgress := 0 } := by
    unfold Experience.applyCurrentSceneCharacterEffect CharacterController.setTargetProgress
    norm_num [ThreeMath.clamp]
  rw [hr]
  unfold CharacterController.update
  rw [(CharacterController.updateAnimation_scalars _).2.2.2,
    CharacterController.updatePosition_currentSpeed,
    CharacterController.updatePosition_currentProgress]
  dsimp only
  have hd : (0 : ℚ) - c.currentProgress < 0 := by linarith
  have habs : |(0 : ℚ) - c.currentProgress| = c.currentProgress := by
    rw [abs_of_neg hd]
    ring
  rw [if_pos (by rw [habs]; exact hdead)]
  rw [habs]
  have hsg : JsMath.sign (0 - c.currentProgress) = -1 := by
    unfold JsMath.sign
    rw [if_neg (by linarith), if_pos hd]
  rw [hsg, min_eq_right hstep]
  have hin : c.currentProgress + -1 * CharacterController.maxStep delta
      = c.currentProgress - CharacterController.maxStep delta := by ring
  rw [hin, ThreeMath.clamp_eq_self _ _ _ (by linarith) (by linarith)]
  rw [hlast]
  unfold ThreeMath.lerp CharacterController.startZ CharacterController.endZ
    CharacterController.smoothSpeed
  rw [hmv]
  have h15 : (0 : ℚ) + (-30 - 0) * (c.currentProgress - delta / 15)
      - (0 + (-30 - 0) * c.currentProgress) = 2 * delta := by ring
  rw [h15, abs_of_pos (by linarith)]
  field_simp

theorem firstTick_speed_after_reset_eq_chase_rate_witness :
    (CharacterController.update
        (Experience.applyCurrentSceneCharacterEffect
          { currentProgress := 1, targetProgress := 1, lastZ := -30, currentSpeed := 0
            posZ := -30, idleExists := true, walkExists := true
            currentAction := some CharacterController.Clip.walk, fadeCount := 0 })
        (1/10)).currentSpeed = CharacterController.smoothSpeed :=
  (firstTick_speed_after_reset_eq_chase_rate
    { currentProgress := 1, targetProgress := 1, lastZ := -30, currentSpeed := 0
      posZ := -30, idleExists := true, walkExists := true
      currentAction := some CharacterController.Clip.walk, fadeCount := 0 }
    (1/10) (by norm_num) le_rfl (by norm_num)
    (by norm_num [CharacterController.maxStep, CharacterController.smoothSpeed,
      CharacterController.endZ, CharacterController.startZ])
    (by norm_num [ThreeMath.lerp, CharacterController.startZ, CharacterController.endZ])).2.2.2

/--
Claim C1, counterexample: with the character at the end of the path
(currentProgress 1, lastZ -30), activating a chapter leaves currentProgress
at 1 instead of 0, and the first update tick afterwards (dt = 0.1) reports
speed 2, not 0.
-/
theorem firstTick_speed_after_reset_not_zero_cex :
    (Experience.applyCurrentSceneCharacterEffect
        { currentProgress := 1, targetProgress := 1, lastZ := -30, currentSpeed := 0
          posZ := -30, idleExists := false, walkExists := false
          currentAction := none, fadeCount := 0 }).currentProgress = 1
    ∧ (CharacterController.update
        (Experience.applyCurrentSceneCharacterEffect
          { currentProgress := 1, targetProgress := 1, lastZ := -30, currentSpeed := 0
            posZ := -30, idleExists := false, walkExists := false
            currentAction := none, fadeCount := 0 })
        (1/10)).currentSpeed = 2
    ∧ (1 : ℚ) ≠ 0 ∧ (2 : ℚ) ≠ 0 := by
  refine ⟨rfl, ?_, by norm_num, by norm_num⟩
  norm_num [CharacterController.update, CharacterController.updatePosition,
    CharacterController.updateAnimation, CharacterController.fadeToAction,
    CharacterController.setTargetProgress, Experience.applyCurrentSceneCharacterEffect,
    CharacterController.maxStep, CharacterController.smoothSpeed, CharacterController.startZ,
    CharacterController.endZ, CharacterController.idleThreshold, ThreeMath.clamp, ThreeMath.lerp,
    JsMath.sign, abs_of_nonneg, abs_of_nonpos]

namespace CharacterControllerExp

theorem playWalk_scalars (s : State) :
    (playWalk s).currentProgress = s.currentProgress ∧
    (playWalk s).targetProgress = s.targetProgress ∧
    (playWalk s).lastZ = s.lastZ ∧
    (playWalk s).hasMixer = s.hasMixer ∧
    (playWalk s).idleExists = s.idleExists ∧
    (playWalk s).walkExists = s.walkExists := by
  unfold playWalk
  split_ifs <;> exact ⟨rfl, rfl, rfl, rfl, rfl, rfl⟩

theorem playIdle_scalars (s : State) :
    (playIdle s).currentProgress = s.currentProgress ∧
    (playIdle s).targetProgress = s.targetProgress ∧
    (playIdle s).lastZ = s.lastZ ∧
    (playIdle s).hasMixer = s.hasMixer ∧
    (playIdle s).idleExists = s.idleExists ∧
    (playIdle s).walkExists = s.walkExists := by
  unfold playIdle
  split_ifs <;> exact ⟨rfl, rfl, rfl, rfl, rfl, rfl⟩

theorem playWalk_currentAction_of_walkExists (s : State) (hW : s.walkExists = true) :
    (playWalk s).currentAction = some CharacterController.Clip.walk := by
  unfold playWalk
  split_ifs with h
  · rcases h with h1 | h2
    · rw [hW] at h1
      exact absurd h1 (by simp)
    · exact h2
  · rfl

theorem playIdle_currentAction_of_idleExists (s : State) (hI : s.idleExists = true) :
    (playIdle s).currentAction = some CharacterController.Clip.idle := by
  unfold playIdle
  split_ifs with h
  · rcases h with h1 | h2
    · rw [hI] at h1
      exact absurd h1 (by simp)
    · exact h2
  · rfl

theorem playWalk_fadeCount_ne (s : State) (h : (playWalk s).fadeCount ≠ s.fadeCount) :
    s.currentAction ≠ some CharacterController.Clip.walk ∧
    (playWalk s).currentAction = some CharacterController.Clip.walk := by
  unfold playWalk at *
  split_ifs at * with hc
  · exact absurd rfl h
  · push_neg at hc
    exact ⟨hc.2, rfl⟩

theorem playIdle_fadeCount_ne (s : State) (h : (playIdle s).fadeCount ≠ s.fadeCount) :
    s.currentAction ≠ some CharacterController.Clip.idle ∧
    (playIdle s).currentAction = some CharacterController.Clip.idle := by
  unfold playIdle at *
  split_ifs at * with hc
  · exact absurd rfl h
  · push_neg at hc
    exact ⟨hc.2, rfl⟩

/-- The body of update once the mixer null-check passed. -/
noncomputable def updateBody (s : State) (delta : ℝ) : State :=
  let s1 : State :=
    { s with currentProgress := newProgress s delta
             posZ := getZFromProgress (newProgress s delta)
             lastZ := getZFromProgress (newProgress s delta) }
  if s.idleExists = true ∧ s.walkExists = true then
    if WALK_THRESHOLD < computedSpeed s delta then playWalk s1 else playIdle s1
  else s1

theorem update_eq_body (s : State) (delta : ℝ) (h : s.hasMixer = true) :
    update s delta = updateBody s delta := by
  unfold update updateBody
  rw [h]
  rw [if_neg (by simp : ¬(true = false))]

end CharacterControllerExp

/--
Claim C4: after an update tick, and provided both animation actions exist
(and, in the exponential revision, the mixer too), the locomotion state is
Walking exactly when the speed computed on that tick exceeds the fixed
threshold — idleThreshold = 0.01 in the constant-rate revision,
WALK_THRESHOLD = 0.02 in the exponential revision — with no hysteresis and
no third state; and re-deciding the state already in effect performs no new
cross-fade: the fade-and-reset bookkeeping only runs when the chosen action
differs from currentAction (in the constant-rate revision the state is then
completely unchanged).
-/
theorem locomotion_state_iff_speed_above_threshold :
    (∀ s : CharacterController.State,
      s.idleExists = true → s.walkExists = true →
      (((CharacterController.updateAnimation s).currentAction
          = some CharacterController.Clip.walk)
        ↔ CharacterController.idleThreshold < s.currentSpeed)
      ∧ (CharacterController.idleThreshold < s.currentSpeed →
          s.currentAction = some CharacterController.Clip.walk →
          CharacterController.updateAnimation s = s)
      ∧ (s.currentSpeed ≤ CharacterController.idleThreshold →
          s.currentAction = some CharacterController.Clip.idle →
          CharacterController.updateAnimation s = s)
      ∧ ((CharacterController.updateAnimation s).fadeCount ≠ s.fadeCount →
          (CharacterController.updateAnimation s).currentAction ≠ s.currentAction))
    ∧ (∀ (s : CharacterControllerExp.State) (delta : ℝ),
      s.hasMixer = true → s.idleExists = true → s.walkExists = true →
      (((CharacterControllerExp.update s delta).currentAction
          = some CharacterController.Clip.walk)
        ↔ CharacterControllerExp.WALK_THRESHOLD < CharacterControllerExp.computedSpeed s delta)
      ∧ ((CharacterControllerExp.update s delta).fadeCount ≠ s.fadeCount →
          (CharacterControllerExp.update s delta).currentAction ≠ s.currentAction)) := by
  constructor
  · intro s hI hW
    refine ⟨?_, ?_, ?_, ?_⟩
    · unfold CharacterController.updateAnimation CharacterController.fadeToAction
      dsimp only
      by_cases hm : CharacterController.idleThreshold < s.currentSpeed
      · by_cases ha : s.currentAction = some CharacterController.Clip.walk
        · rw [if_neg (by simp [ha]), if_neg (by simp [hm])]
          simp [ha, hm]
        · rw [if_pos ⟨hm, hW, ha⟩]
          simp [hm]
      · rw [if_neg (by simp [hm])]
        by_cases hb : s.currentAction = some CharacterController.Clip.idle
        · rw [if_neg (by simp [hb])]
          simp [hb, hm]
        · rw [if_pos ⟨hm, hI, hb⟩]
          simp [hm]
    · intro hm ha
      unfold CharacterController.updateAnimation
      dsimp only
      rw [if_neg (by simp [ha]), if_neg (by simp [hm])]
    · intro hm hb
      unfold CharacterController.updateAnimation
      dsimp only
      rw [if_neg (by simp [not_lt.mpr hm]), if_neg (by simp [hb])]
    · unfold CharacterController.updateAnimation CharacterController.fadeToAction
      dsimp only
      split_ifs with h1 h2
      · intro _
        simp only
        exact fun hc => h1.2.2 hc.symm
      · intro _
        simp only
        exact fun hc => h2.2.2 hc.symm
      · intro hc
        exact absurd rfl hc
  · intro s delta hM hI hW
    rw [CharacterControllerExp.update_eq_body s delta hM]
    unfold CharacterControllerExp.updateBody
    dsimp only
    rw [if_pos ⟨hI, hW⟩]
    split_ifs with hsp
    · constructor
      · rw [CharacterControllerExp.playWalk_currentAction_of_walkExists _ (by exact hW)]
        simp [hsp]
      · intro hf
        have := CharacterControllerExp.playWalk_fadeCount_ne _ hf
        rw [this.2]
        exact fun hc => this.1 hc.symm
    · constructor
      · rw [CharacterControllerExp.playIdle_currentAction_of_idleExists _ (by exact hI)]
        simp [hsp]
      · intro hf
        have := CharacterControllerExp.playIdle_fadeCount_ne _ hf
        rw [this.2]
        exact fun hc => this.1 hc.symm

theorem locomotion_state_iff_speed_above_threshold_witness :
    ((CharacterController.updateAnimation
        { currentProgress := 0, targetProgress := 0, lastZ := 0, currentSpeed := 1, posZ := 0
          idleExists := true, walkExists := true
          currentAction := some CharacterController.Clip.idle, fadeCount := 0 }).currentAction
      = some CharacterController.Clip.walk
      ↔ CharacterController.idleThreshold < 1)
    ∧ ((CharacterControllerExp.update
        { currentProgress := 0, targetProgress := 1, lastZ := 0, posZ := 0, hasMixer := true
          idleExists := true, walkExists := true
          currentAction := some CharacterController.Clip.idle, fadeCount := 0 } 1).currentAction
      = some CharacterController.Clip.walk
      ↔ CharacterControllerExp.WALK_THRESHOLD
        < CharacterControllerExp.computedSpeed
            { currentProgress := 0, targetProgress := 1, lastZ := 0, posZ := 0, hasMixer := true
              idleExists := true, walkExists := true
              currentAction := some CharacterController.Clip.idle, fadeCount := 0 } 1) := by
  constructor
  · exact (locomotion_state_iff_speed_above_threshold.1
      { currentProgress := 0, targetProgress := 0, lastZ := 0, currentSpeed := 1, posZ := 0
        idleExists := true, walkExists := true
        currentAction := some CharacterController.Clip.idle, fadeCount := 0 } rfl rfl).1
  · exact (locomotion_state_iff_speed_above_threshold.2
      { currentProgress := 0, targetProgress := 1, lastZ := 0, posZ := 0, hasMixer := true
        idleExists := true, walkExists := true
        currentAction := some CharacterController.Clip.idle, fadeCount := 0 } 1 rfl rfl rfl).1

namespace CameraController

theorem vlerp_dist (a b : Vec3) (f : ℝ) (h1 : f ≤ 1) :
    dist (vlerp a b f) b = (1 - f) * dist a b := by
  unfold dist vlerp
  dsimp only
  have hx : a.x + (b.x - a.x) * f - b.x = (1 - f) * (a.x - b.x) := by ring
  have hy : a.y + (b.y - a.y) * f - b.y = (1 - f) * (a.y - b.y) := by ring
  have hz : a.z + (b.z - a.z) * f - b.z = (1 - f) * (a.z - b.z) := by ring
  rw [hx, hy, hz]
  have hsum : ((1 - f) * (a.x - b.x)) ^ 2 + ((1 - f) * (a.y - b.y)) ^ 2
      + ((1 - f) * (a.z - b.z)) ^ 2
      = (1 - f) ^ 2 * ((a.x - b.x) ^ 2 + (a.y - b.y) ^ 2 + (a.z - b.z) ^ 2) := by ring
  rw [hsum, Real.sqrt_mul (sq_nonneg _), Real.sqrt_sq (by linarith : (0 : ℝ) ≤ 1 - f)]

theorem followIter_smoothFactor (s : CamState) (p : Vec3) :
    ∀ n : ℕ, (followIter s p n).smoothFactor = s.smoothFactor := by
  intro n
  induction n with
  | zero => rfl
  | succ n ih => exact ih

theorem followIter_dist (s : CamState) (p : Vec3) (h1 : s.smoothFactor ≤ 1) :
    ∀ n : ℕ,
      dist (followIter s p n).currentPosition (vadd p offset)
        = (1 - s.smoothFactor) ^ n * dist s.currentPosition (vadd p offset) := by
  intro n
  induction n with
  | zero =>
      rw [pow_zero, one_mul]
      rfl
  | succ n ih =>
      have hstep : dist (followIter s p (n + 1)).currentPosition (vadd p offset)
          = (1 - s.smoothFactor) * dist (followIter s p n).currentPosition (vadd p offset) := by
        have : (followIter s p (n + 1)).currentPosition
            = vlerp (followIter s p n).currentPosition (vadd p offset)
                (followIter s p n).smoothFactor := rfl
        rw [this, followIter_smoothFactor, vlerp_dist _ _ _ h1]
      rw [hstep, ih, pow_succ]
      ring

end CameraController

/--
Claim C5: each follow call lerps both the smoothed camera position toward
subjectPosition + offset and the smoothed look-at point toward
subjectPosition + lookAtOffset with factor smoothFactor; for smoothFactor in
[0, 1] the distance of either smoothed value to its target shrinks by
exactly the factor (1 - smoothFactor) every tick, and for a constant subject
position and smoothFactor in (0, 1) the distance of the smoothed position to
subjectPosition + offset tends to 0 as the tick count goes to infinity.
-/
theorem camera_follow_contraction_and_convergence :
    (∀ (s : CameraController.CamState) (p : CameraController.Vec3),
      CameraController.follow s p =
        { currentPosition := CameraController.vlerp s.currentPosition
            (CameraController.vadd p CameraController.offset) s.smoothFactor
          currentLookAt := CameraController.vlerp s.currentLookAt
            (CameraController.vadd p CameraController.lookAtOffset) s.smoothFactor
          smoothFactor := s.smoothFactor })
    ∧ (∀ (s : CameraController.CamState) (p : CameraController.Vec3),
      s.smoothFactor ≤ 1 →
      CameraController.dist (CameraController.follow s p).currentPosition
          (CameraController.vadd p CameraController.offset)
        = (1 - s.smoothFactor) *
            CameraController.dist s.currentPosition
              (CameraController.vadd p CameraController.offset)
      ∧ CameraController.dist (CameraController.follow s p).currentLookAt
          (CameraController.vadd p CameraController.lookAtOffset)
        = (1 - s.smoothFactor) *
            CameraController.dist s.currentLookAt
              (CameraController.vadd p CameraController.lookAtOffset))
    ∧ (∀ (s : CameraController.CamState) (p : CameraController.Vec3),
      0 < s.smoothFactor → s.smoothFactor < 1 →
      Filter.Tendsto
        (fun n => CameraController.dist (CameraController.followIter s p n).currentPosition
          (CameraController.vadd p CameraController.offset))
        Filter.atTop (nhds 0)) := by
  refine ⟨fun s p => rfl, ?_, ?_⟩
  · intro s p h1
    exact ⟨CameraController.vlerp_dist _ _ _ h1, CameraController.vlerp_dist _ _ _ h1⟩
  · intro s p h0 h1
    have hfun : (fun n => CameraController.dist
          (CameraController.followIter s p n).currentPosition
          (CameraController.vadd p CameraController.offset))
        = fun n => (1 - s.smoothFactor) ^ n *
            CameraController.dist s.currentPosition
              (CameraController.vadd p CameraController.offset) :=
      funext (CameraController.followIter_dist s p h1.le)
    rw [hfun]
    have hp : Filter.Tendsto (fun n : ℕ => (1 - s.smoothFactor) ^ n) Filter.atTop (nhds 0) :=
      tendsto_pow_atTop_nhds_zero_of_lt_one (by linarith) (by linarith)
    have := hp.mul_const
      (CameraController.dist s.currentPosition (CameraController.vadd p CameraController.offset))
    rw [zero_mul] at this
    exact this

theorem camera_follow_contraction_and_convergence_witness :
    CameraController.dist
        (CameraController.follow
          { currentPosition := ⟨1, 0, 0⟩, currentLookAt := ⟨0, 0, 0⟩, smoothFactor := 1/2 }
          ⟨0, 0, 0⟩).currentPosition
        (CameraController.vadd ⟨0, 0, 0⟩ CameraController.offset)
      = (1 - 1/2) *
          CameraController.dist (⟨1, 0, 0⟩ : CameraController.Vec3)
            (CameraController.vadd ⟨0, 0, 0⟩ CameraController.offset)
    ∧ Filter.Tendsto
        (fun n => CameraController.dist
          (CameraController.followIter
            { currentPosition := ⟨1, 0, 0⟩, currentLookAt := ⟨0, 0, 0⟩, smoothFactor := 1/2 }
            ⟨0, 0, 0⟩ n).currentPosition
          (CameraController.vadd ⟨0, 0, 0⟩ CameraController.offset))
        Filter.atTop (nhds 0) := by
  constructor
  · exact (camera_follow_contraction_and_convergence.2.1
      { currentPosition := ⟨1, 0, 0⟩, currentLookAt := ⟨0, 0, 0⟩, smoothFactor := 1/2 }
      ⟨0, 0, 0⟩ (by norm_num)).1
  · exact camera_follow_contraction_and_convergence.2.2
      { currentPosition := ⟨1, 0, 0⟩, currentLookAt := ⟨0, 0, 0⟩, smoothFactor := 1/2 }
      ⟨0, 0, 0⟩ (by norm_num) (by norm_num)

namespace CharacterController

theorem sign_mul_min_bounds (c T m : ℚ) (hm : 0 ≤ m) :
    min c T ≤ c + JsMath.sign (T - c) * min |T - c| m
    ∧ c + JsMath.sign (T - c) * min |T - c| m ≤ max c T := by
  rcases lt_trichotomy c T with h | h | h
  · have hd : 0 < T - c := by linarith
    rw [JsMath.sign, if_pos hd, abs_of_pos hd]
    have hmin0 : 0 ≤ min (T - c) m := le_min hd.le hm
    have hmin1 : min (T - c) m ≤ T - c := min_le_left _ _
    constructor
    · have := min_le_left c T
      linarith
    · have := le_max_right c T
      linarith
  · subst h
    rw [sub_self, JsMath.sign, if_neg (lt_irrefl 0), if_neg (lt_irrefl 0)]
    constructor
    · have := min_le_left c c
      linarith
    · have := le_max_left c c
      linarith
  · have hd : T - c < 0 := by linarith
    rw [JsMath.sign, if_neg (not_lt.mpr hd.le), if_pos hd, abs_of_neg hd]
    have hmin0 : 0 ≤ min (-(T - c)) m := le_min (by linarith) hm
    have hmin1 : min (-(T - c)) m ≤ -(T - c) := min_le_left _ _
    constructor
    · have := min_le_right c T
      linarith
    · have := le_max_left c T
      linarith

theorem abs_target_sub_le (c T x : ℚ) (hlo : min c T ≤ x) (hhi : x ≤ max c T) :
    |T - x| ≤ |T - c| := by
  rcases le_total c T with h | h
  · rw [min_eq_left h] at hlo
    rw [max_eq_right h] at hhi
    rw [abs_of_nonneg (by linarith), abs_of_nonneg (by linarith)]
    linarith
  · rw [min_eq_right h] at hlo
    rw [max_eq_left h] at hhi
    rw [abs_of_nonpos (by linarith), abs_of_nonpos (by linarith)]
    linarith

theorem updatePosition_between (s : State) (delta : ℚ) (hdelta : 0 ≤ delta)
    (h1 : 0 ≤ s.currentProgress) (h2 : s.currentProgress ≤ 1)
    (h3 : 0 ≤ s.targetProgress) (h4 : s.targetProgress ≤ 1) :
    min s.currentProgress s.targetProgress ≤ (updatePosition s delta).currentProgress
    ∧ (updatePosition s delta).currentProgress ≤ max s.currentProgress s.targetProgress := by
  have hm : 0 ≤ maxStep delta := maxStep_nonneg delta hdelta
  rw [updatePosition_currentProgress]
  split_ifs with hgt
  · have hb := sign_mul_min_bounds s.currentProgress s.targetProgress (maxStep delta) hm
    have hx0 : (0 : ℚ) ≤ s.currentProgress +
        JsMath.sign (s.targetProgress - s.currentProgress) *
          min |s.targetProgress - s.currentProgress| (maxStep delta) :=
      le_trans (le_min h1 h3) hb.1
    have hx1 : s.currentProgress +
        JsMath.sign (s.targetProgress - s.currentProgress) *
          min |s.targetProgress - s.currentProgress| (maxStep delta) ≤ 1 :=
      le_trans hb.2 (max_le h2 h4)
    rw [ThreeMath.clamp_eq_self _ _ _ hx0 hx1]
    exact hb
  · exact ⟨min_le_left _ _, le_max_left _ _⟩

theorem updatePosition_err_le (s : State) (delta : ℚ) (hdelta : 0 ≤ delta)
    (h1 : 0 ≤ s.currentProgress) (h2 : s.currentProgress ≤ 1)
    (h3 : 0 ≤ s.targetProgress) (h4 : s.targetProgress ≤ 1) :
    |s.targetProgress - (updatePosition s delta).currentProgress|
      ≤ max (|s.targetProgress - s.currentProgress| - maxStep delta) (1/10000) := by
  have hm : 0 ≤ maxStep delta := maxStep_nonneg delta hdelta
  rw [updatePosition_currentProgress]
  split_ifs with hgt
  · have hb := sign_mul_min_bounds s.currentProgress s.targetProgress (maxStep delta) hm
    have hx0 : (0 : ℚ) ≤ s.currentProgress +
        JsMath.sign (s.targetProgress - s.currentProgress) *
          min |s.targetProgress - s.currentProgress| (maxStep delta) :=
      le_trans (le_min h1 h3) hb.1
    have hx1 : s.currentProgress +
        JsMath.sign (s.targetProgress - s.currentProgress) *
          min |s.targetProgress - s.currentProgress| (maxStep delta) ≤ 1 :=
      le_trans hb.2 (max_le h2 h4)
    rw [ThreeMath.clamp_eq_self _ _ _ hx0 hx1]
    rcases lt_trichotomy s.currentProgress s.targetProgress with h | h | h
    · have hd : 0 < s.targetProgress - s.currentProgress := by linarith
      rw [JsMath.sign, if_pos hd, abs_of_pos hd]
      rcases le_total (maxStep delta) (s.targetProgress - s.currentProgress) with hc | hc
      · rw [min_eq_right hc]
        have hval : s.targetProgress -
            (s.currentProgress + 1 * maxStep delta)
            = (s.targetProgress - s.currentProgress) - maxStep delta := by ring
        rw [hval, abs_of_nonneg (by linarith)]
        exact le_max_left _ _
      · rw [min_eq_left hc]
        have hval : s.targetProgress -
            (s.currentProgress + 1 * (s.targetProgress - s.currentProgress)) = 0 := by ring
        rw [hval, abs_zero]
        exact le_trans (by norm_num) (le_max_right _ _)
    · exact absurd hgt (by rw [h, sub_self, abs_zero]; norm_num)
    · have hd : s.targetProgress - s.currentProgress < 0 := by linarith
      rw [JsMath.sign, if_neg (not_lt.mpr hd.le), if_pos hd, abs_of_neg hd]
      rcases le_total (maxStep delta) (-(s.targetProgress - s.currentProgress)) with hc | hc
      · rw [min_eq_right hc]
        have hval : s.targetProgress - (s.currentProgress + -1 * maxStep delta)
            = (s.targetProgress - s.currentProgress) + maxStep delta := by ring
        rw [hval, abs_of_nonpos (by linarith)]
        have : -((s.targetProgress - s.currentProgress) + maxStep delta)
            = -(s.targetProgress - s.currentProgress) - maxStep delta := by ring
        rw [this]
        exact le_max_left _ _
      · rw [min_eq_left hc]
        have hval : s.targetProgress -
            (s.currentProgress + -1 * -(s.targetProgress - s.currentProgress)) = 0 := by ring
        rw [hval, abs_zero]
        exact le_trans (by norm_num) (le_max_right _ _)
  · push_neg at hgt
    exact le_trans hgt (le_max_right _ _)

theorem update_currentProgress (s : State) (delta : ℚ) :
    (update s delta).currentProgress = (updatePosition s delta).currentProgress :=
  (updateAnimation_scalars _).1

theorem update_targetProgress (s : State) (delta : ℚ) :
    (update s delta).targetProgress = s.targetProgress := by
  unfold update
  rw [(updateAnimation_scalars _).2.1, updatePosition_targetProgress]

theorem chaseIter_spec (s : State) (delta : ℚ) (hdelta : 0 < delta)
    (h1 : 0 ≤ s.currentProgress) (h2 : s.currentProgress ≤ 1)
    (h3 : 0 ≤ s.targetProgress) (h4 : s.targetProgress ≤ 1) :
    ∀ n : ℕ,
      (0 ≤ (chaseIter s delta n).currentProgress
        ∧ (chaseIter s delta n).currentProgress ≤ 1
        ∧ (chaseIter s delta n).targetProgress = s.targetProgress)
      ∧ |s.targetProgress - (chaseIter s delta n).currentProgress|
          ≤ max (|s.targetProgress - s.currentProgress| - n * maxStep delta) (1/10000) := by
  intro n
  induction n with
  | zero =>
      refine ⟨⟨h1, h2, rfl⟩, ?_⟩
      have : ((0 : ℕ) : ℚ) * maxStep delta = 0 := by norm_num
      rw [this, sub_zero]
      exact le_max_left _ _
  | succ n ih =>
      obtain ⟨⟨i1, i2, i3⟩, i4⟩ := ih
      have hT0 : 0 ≤ (chaseIter s delta n).targetProgress := i3 ▸ h3
      have hT1 : (chaseIter s delta n).targetProgress ≤ 1 := i3 ▸ h4
      have hbet := updatePosition_between (chaseIter s delta n) delta hdelta.le i1 i2 hT0 hT1
      have hcur : (chaseIter s delta (n + 1)).currentProgress
          = (updatePosition (chaseIter s delta n) delta).currentProgress :=
        update_currentProgress _ _
      have htar : (chaseIter s delta (n + 1)).targetProgress = s.targetProgress := by
        have := update_targetProgress (chaseIter s delta n) delta
        exact this.trans i3
      refine ⟨⟨?_, ?_, htar⟩, ?_⟩
      · rw [hcur]
        exact le_trans (le_min i1 hT0) hbet.1
      · rw [hcur]
        exact le_trans hbet.2 (max_le i2 hT1)
      · rw [hcur]
        have herr := updatePosition_err_le (chaseIter s delta n) delta hdelta.le i1 i2 hT0 hT1
        rw [i3] at herr
        have hmpos : 0 < maxStep delta := maxStep_pos delta hdelta
        have hkey : |s.targetProgress - (chaseIter s delta n).currentProgress| - maxStep delta
            ≤ max (|s.targetProgress - s.currentProgress| - (n + 1 : ℕ) * maxStep delta)
                (1/10000) := by
          rcases max_cases (|s.targetProgress - s.currentProgress| - n * maxStep delta)
              (1/10000 : ℚ) with ⟨he, _⟩ | ⟨he, _⟩
          · rw [he] at i4
            refine le_trans ?_ (le_max_left _ _)
            push_cast
            linarith
          · rw [he] at i4
            refine le_trans ?_ (le_max_right _ _)
            linarith
        refine le_trans herr (max_le ?_ (le_max_right _ _))
        exact hkey

end CharacterController

namespace CharacterControllerExp

theorem update_currentProgress_of_mixer (s : State) (delta : ℝ) (h : s.hasMixer = true) :
    (update s delta).currentProgress = newProgress s delta := by
  rw [update_eq_body s delta h]
  unfold updateBody
  dsimp only
  split_ifs
  · rw [(playWalk_scalars _).1]
  · rw [(playIdle_scalars _).1]
  · rfl

theorem update_targetProgress_exp (s : State) (delta : ℝ) :
    (update s delta).targetProgress = s.targetProgress := by
  unfold update
  dsimp only
  split_ifs
  · rfl
  · rw [(playWalk_scalars _).2.1]
  · rw [(playIdle_scalars _).2.1]
  · rfl

theorem update_hasMixer_exp (s : State) (delta : ℝ) :
    (update s delta).hasMixer = s.hasMixer := by
  unfold update
  dsimp only
  split_ifs
  · rfl
  · rw [(playWalk_scalars _).2.2.2.1]
  · rw [(playIdle_scalars _).2.2.2.1]
  · rfl

theorem update_err_exp (s : State) (delta : ℝ) (h : s.hasMixer = true) :
    s.targetProgress - (update s delta).currentProgress
      = Real.exp (-smoothSpeed * delta) * (s.targetProgress - s.currentProgress) := by
  rw [update_currentProgress_of_mixer s delta h]
  unfold newProgress ThreeMath.lerp
  ring

theorem updIter_hasMixer (s : State) (delta : ℝ) (h : s.hasMixer = true) :
    ∀ n : ℕ, (updIter s delta n).hasMixer = true := by
  intro n
  induction n with
  | zero => exact h
  | succ n ih => exact (update_hasMixer_exp _ _).trans ih

theorem updIter_targetProgress (s : State) (delta : ℝ) :
    ∀ n : ℕ, (updIter s delta n).targetProgress = s.targetProgress := by
  intro n
  induction n with
  | zero => rfl
  | succ n ih => exact (update_targetProgress_exp _ _).trans ih

theorem updIter_err (s : State) (delta : ℝ) (h : s.hasMixer = true) :
    ∀ n : ℕ, s.targetProgress - (updIter s delta n).currentProgress
      = (Real.exp (-smoothSpeed * delta)) ^ n * (s.targetProgress - s.currentProgress) := by
  intro n
  induction n with
  | zero =>
      rw [pow_zero, one_mul]
      rfl
  | succ n ih =>
      have hm := updIter_hasMixer s delta h n
      have ht := updIter_targetProgress s delta n
      have hstep := update_err_exp (updIter s delta n) delta hm
      rw [ht] at hstep
      calc s.targetProgress - (updIter s delta (n + 1)).currentProgress
          = Real.exp (-smoothSpeed * delta)
              * (s.targetProgress - (updIter s delta n).currentProgress) := hstep
        _ = Real.exp (-smoothSpeed * delta)
              * ((Real.exp (-smoothSpeed * delta)) ^ n
                  * (s.targetProgress - s.currentProgress)) := by rw [ih]
        _ = (Real.exp (-smoothSpeed * delta)) ^ (n + 1)
              * (s.targetProgress - s.currentProgress) := by ring

end CharacterControllerExp

/-- The state used by the convergence counterexample: progress at the path
start with the target the tiny value 1/20000, inside the unit interval but
below the 1e-4 deadband of the constant-rate chase. -/
def c3state : CharacterController.State :=
  { currentProgress := 0, targetProgress := 1/20000, lastZ := 0, currentSpeed := 0
    posZ := 0, idleExists := false, walkExists := false
    currentAction := none, fadeCount := 0 }

theorem c3state_stuck : ∀ n : ℕ,
    (CharacterController.chaseIter c3state (1/60) n).currentProgress = 0
    ∧ (CharacterController.chaseIter c3state (1/60) n).targetProgress = 1/20000 := by
  intro n
  induction n with
  | zero => exact ⟨rfl, rfl⟩
  | succ n ih =>
      obtain ⟨hc, ht⟩ := ih
      constructor
      · show (CharacterController.update _ _).currentProgress = 0
        rw [CharacterController.update_currentProgress,
          CharacterController.updatePosition_currentProgress, ht, hc]
        norm_num [abs_of_nonneg]
      · show (CharacterController.update _ _).targetProgress = 1/20000
        rw [CharacterController.update_targetProgress, ht]

/--
Claim C3, counterexample: with target 1/20000 (inside [0, 1]) held fixed and
the fixed positive tick dt = 1/60, currentProgress never moves off 0 — the
whole gap sits below the 1e-4 deadband of updatePosition — so the sequence
of currentProgress values does not converge to the target: the claimed exact
convergence fails.
-/
theorem chase_does_not_converge_exactly_cex :
    ¬ Filter.Tendsto
        (fun n => (CharacterController.chaseIter c3state (1/60) n).currentProgress)
        Filter.atTop (nhds ((1 : ℚ)/20000)) := by
  intro h
  have hfun : (fun n => (CharacterController.chaseIter c3state (1/60) n).currentProgress)
      = fun _ => (0 : ℚ) := funext fun n => (c3state_stuck n).1
  rw [hfun] at h
  have h0 : Filter.Tendsto (fun _ : ℕ => (0 : ℚ)) Filter.atTop (nhds 0) := tendsto_const_nhds
  have := tendsto_nhds_unique h h0
  norm_num at this

/--
Claim C3 (corrected): for progress values inside the unit interval the
constant-rate chase is monotone toward the target and never overshoots it
(each tick lands between the old value and the target, so the gap never
grows), and with a fixed positive dt it reaches the 1e-4 deadband of the
target after enough ticks — but it converges only to within that deadband,
not exactly (see the counterexample).  The exponential revision shrinks the
gap by the exact factor exp(-smoothSpeed * dt) each tick and does converge
to the target in the limit.
-/
theorem chase_monotone_no_overshoot_converges_within_deadband :
    (∀ (s : CharacterController.State) (delta : ℚ), 0 ≤ delta →
      0 ≤ s.currentProgress → s.currentProgress ≤ 1 →
      0 ≤ s.targetProgress → s.targetProgress ≤ 1 →
      min s.currentProgress s.targetProgress
          ≤ (CharacterController.update s delta).currentProgress
      ∧ (CharacterController.update s delta).currentProgress
          ≤ max s.currentProgress s.targetProgress
      ∧ |s.targetProgress - (CharacterController.update s delta).currentProgress|
          ≤ |s.targetProgress - s.currentProgress|)
    ∧ (∀ (s : CharacterController.State) (delta : ℚ) (n : ℕ), 0 < delta →
      0 ≤ s.currentProgress → s.currentProgress ≤ 1 →
      0 ≤ s.targetProgress → s.targetProgress ≤ 1 →
      |s.targetProgress - s.currentProgress| ≤ n * CharacterController.maxStep delta →
      |s.targetProgress - (CharacterController.chaseIter s delta n).currentProgress|
        ≤ 1/10000)
    ∧ (∀ (s : CharacterControllerExp.State) (delta : ℝ), s.hasMixer = true →
      s.targetProgress - (CharacterControllerExp.update s delta).currentProgress
        = Real.exp (-CharacterControllerExp.smoothSpeed * delta)
            * (s.targetProgress - s.currentProgress))
    ∧ (∀ (s : CharacterControllerExp.State) (delta : ℝ), s.hasMixer = true → 0 < delta →
      Filter.Tendsto (fun n => (CharacterControllerExp.updIter s delta n).currentProgress)
        Filter.atTop (nhds s.targetProgress)) := by
  refine ⟨?_, ?_, ?_, ?_⟩
  · intro s delta hd h1 h2 h3 h4
    have hbet := CharacterController.updatePosition_between s delta hd h1 h2 h3 h4
    rw [← CharacterController.update_currentProgress] at hbet
    exact ⟨hbet.1, hbet.2,
      CharacterController.abs_target_sub_le _ _ _ hbet.1 hbet.2⟩
  · intro s delta n hd h1 h2 h3 h4 hn
    have hspec := (CharacterController.chaseIter_spec s delta hd h1 h2 h3 h4 n).2
    refine le_trans hspec (max_le ?_ le_rfl)
    linarith
  · intro s delta h
    exact CharacterControllerExp.update_err_exp s delta h
  · intro s delta h hd
    have hr0 : 0 ≤ Real.exp (-CharacterControllerExp.smoothSpeed * delta) :=
      (Real.exp_pos _).le
    have hr1 : Real.exp (-CharacterControllerExp.smoothSpeed * delta) < 1 := by
      rw [Real.exp_lt_one_iff]
      have h5 : (0 : ℝ) < CharacterControllerExp.smoothSpeed := by
        norm_num [CharacterControllerExp.smoothSpeed]
      nlinarith
    have hfun : (fun n => (CharacterControllerExp.updIter s delta n).currentProgress)
        = fun n => s.targetProgress
            - (Real.exp (-CharacterControllerExp.smoothSpeed * delta)) ^ n
                * (s.targetProgress - s.currentProgress) := by
      refine funext fun n => ?_
      have := CharacterControllerExp.updIter_err s delta h n
      linarith
    rw [hfun]
    have hp := tendsto_pow_atTop_nhds_zero_of_lt_one hr0 hr1
    have h2 := hp.mul_const (s.targetProgress - s.currentProgress)
    rw [zero_mul] at h2
    have h3 := (tendsto_const_nhds :
      Filter.Tendsto (fun _ : ℕ => s.targetProgress) Filter.atTop (nhds s.targetProgress)).sub h2
    rw [sub_zero] at h3
    exact h3

theorem chase_monotone_no_overshoot_converges_within_deadband_witness :
    |(CharacterController.setTargetProgress CharacterController.initialState 1).targetProgress
        - (CharacterController.chaseIter
            (CharacterController.setTargetProgress CharacterController.initialState 1)
            1 15).currentProgress| ≤ 1/10000
    ∧ ({ currentProgress := 0, targetProgress := 1, lastZ := 0, posZ := 0, hasMixer := true
         idleExists := true, walkExists := true, currentAction := none, fadeCount := 0 }
          : CharacterControllerExp.State).targetProgress
        - (CharacterControllerExp.update
            { currentProgress := 0, targetProgress := 1, lastZ := 0, posZ := 0, hasMixer := true
              idleExists := true, walkExists := true, currentAction := none, fadeCount := 0 }
            1).currentProgress
      = Real.exp (-CharacterControllerExp.smoothSpeed * 1)
          * (({ currentProgress := 0, targetProgress := 1, lastZ := 0, posZ := 0, hasMixer := true
                idleExists := true, walkExists := true, currentAction := none, fadeCount := 0 }
                : CharacterControllerExp.State).targetProgress
              - ({ currentProgress := 0, targetProgress := 1, lastZ := 0, posZ := 0
                   hasMixer := true, idleExists := true, walkExists := true
                   currentAction := none, fadeCount := 0 }
                  : CharacterControllerExp.State).currentProgress) := by
  constructor
  · refine chase_monotone_no_overshoot_converges_within_deadband.2.1
      (CharacterController.setTargetProgress CharacterController.initialState 1) 1 15
      (by norm_num) ?_ ?_ ?_ ?_ ?_ <;>
      norm_num [CharacterController.setTargetProgress, CharacterController.initialState,
        CharacterController.maxStep, CharacterController.smoothSpeed,
        CharacterController.startZ, CharacterController.endZ, ThreeMath.clamp]
  · exact chase_monotone_no_overshoot_converges_within_deadband.2.2.1
      { currentProgress := 0, targetProgress := 1, lastZ := 0, posZ := 0, hasMixer := true
        idleExists := true, walkExists := true, currentAction := none, fadeCount := 0 } 1 rfl

